import Mathlib

/-!
Verification development for `cstar/base/utils.py`.

The Python helpers are embedded shallowly:
* Python `int` is embedded as `ℤ` (arbitrary precision, so no wrap-around);
* the two divisions in `_calculate_node_distribution` (Python `/` on ints,
  i.e. real division fed to `math.ceil`) are embedded as exact division in
  `ℚ` followed by `Int.ceil`, which agrees with the float computation on
  the magnitudes a job scheduler sees;
* Python strings are embedded as `List Char` where character-level
  behaviour matters (regex matching, `str.split`, `str.replace`) and as
  `String` where only concatenation matters;
* raised exceptions are embedded as the `Except` monad with an explicit
  exception type, and subprocess results (exit status, captured stderr)
  are embedded as inputs.
-/

/-! ## Definitions -/

/-- Embedding of `_calculate_node_distribution` from `cstar/base/utils.py`:

    n_nodes_to_request = ceil(n_cores_required / tot_cores_per_node)
    cores_to_request_per_node = ceil(
        tot_cores_per_node
        - ((n_nodes_to_request * tot_cores_per_node) - n_cores_required)
        / n_nodes_to_request)

Both `/` are Python real division, embedded as exact division in `ℚ`. -/
def _calculate_node_distribution (n_cores_required tot_cores_per_node : ℤ) : ℤ × ℤ :=
  let n_nodes_to_request : ℤ := ⌈(n_cores_required : ℚ) / (tot_cores_per_node : ℚ)⌉
  let cores_to_request_per_node : ℤ :=
    ⌈(tot_cores_per_node : ℚ)
      - ((n_nodes_to_request * tot_cores_per_node - n_cores_required : ℤ) : ℚ)
        / (n_nodes_to_request : ℚ)⌉
  (n_nodes_to_request, cores_to_request_per_node)

/-- The spec's algorithm for the allocator, written from the spec text:
`nodes = ceil(cores_required / cores_per_node)` and
`cores_per_node_requested =
  ceil(cores_per_node - ((nodes * cores_per_node) - cores_required) / nodes)`,
with exact rational division. -/
def allocateSpecFormula (cores_required cores_per_node : ℤ) : ℤ × ℤ :=
  let nodes : ℤ := ⌈(cores_required : ℚ) / (cores_per_node : ℚ)⌉
  (nodes,
    ⌈(cores_per_node : ℚ)
      - ((nodes * cores_per_node - cores_required : ℤ) : ℚ) / (nodes : ℚ)⌉)

/-- A lowercase hexadecimal digit, the character class `[0-9a-f]`
(code points 48–57 and 97–102). -/
def isLowerHexDigit (c : Char) : Bool :=
  (decide (48 ≤ c.toNat) && decide (c.toNat ≤ 57)) ||
  (decide (97 ≤ c.toNat) && decide (c.toNat ≤ 102))

/-- An uppercase hexadecimal letter `A`–`F` (code points 65–70). -/
def isUpperHexLetter (c : Char) : Bool :=
  decide (65 ≤ c.toNat) && decide (c.toNat ≤ 70)

/-- Run of the regex atom `[0-9a-f]{n}`: consume exactly `n` lowercase hex
digits, returning the unconsumed suffix. -/
def hexRun : Nat → List Char → Option (List Char)
  | 0, s => some s
  | _ + 1, [] => none
  | k + 1, c :: rest => if isLowerHexDigit c then hexRun k rest else none

/-- The `$` anchor of Python `re` without `re.MULTILINE`: it matches at the
end of the string, or just before a newline at the end of the string. -/
def dollarEnd : List Char → Bool
  | [] => true
  | [c] => c == '\n'
  | _ => false

/-- `bool(re.match(r"^[0-9a-f]{n}$", s))`, as in the `is_potential_hash`
test of `_get_hash_from_checkout_target`: `n` lowercase hex digits from
the start of the string, then the `$` anchor. -/
def reMatchLowerHex (n : Nat) (s : List Char) : Bool :=
  match hexRun n s with
  | none => false
  | some rest => dollarEnd rest

/-- Python `str.split()` whitespace (the ASCII whitespace characters). -/
def isPySpace (c : Char) : Bool :=
  c == ' ' || c == '\t' || c == '\n' || c == '\r' || c == '\x0b' || c == '\x0c'

/-- Accumulator worker for `pySplit`. -/
def pySplitAux : List Char → List Char → List (List Char)
  | [], acc => if acc.isEmpty then [] else [acc.reverse]
  | c :: rest, acc =>
    if isPySpace c then
      if acc.isEmpty then pySplitAux rest [] else acc.reverse :: pySplitAux rest []
    else pySplitAux rest (c :: acc)

/-- Python `str.split()` with no argument: split on runs of whitespace,
discarding empty fields. -/
def pySplit (s : List Char) : List (List Char) := pySplitAux s []

/-- The exceptions raised by the embedded helpers.  `runtimeError` keeps
the fields that the Python `RuntimeError` message interpolates: the exit
status of the failed subprocess and its captured stderr text. -/
inductive PyExc where
  | valueError : PyExc
  | indexError : PyExc
  | runtimeError : ℤ → String → PyExc
deriving DecidableEq

instance {ε α : Type} [DecidableEq ε] [DecidableEq α] : DecidableEq (Except ε α) :=
  fun x y =>
    match x, y with
    | Except.ok a, Except.ok b =>
      if h : a = b then isTrue (by rw [h])
      else isFalse (by intro hh; cases hh; exact h rfl)
    | Except.ok _, Except.error _ => isFalse (by intro hh; cases hh)
    | Except.error _, Except.ok _ => isFalse (by intro hh; cases hh)
    | Except.error e, Except.error f =>
      if h : e = f then isTrue (by rw [h])
      else isFalse (by intro hh; cases hh; exact h rfl)

/-- Embedding of `_get_hash_from_checkout_target`, with the stdout of the
`git ls-remote` subprocess (`ls_remote`) modeled as an input.  The Python
code computes `is_potential_hash` (two `re.match` calls against
`^[0-9a-f]{7}$` and `^[0-9a-f]{40}$`), then: if `len(ls_remote) == 0`
it returns `checkout_target` when `is_potential_hash` holds and raises
`ValueError` otherwise; else it returns `ls_remote.split()[0]` (Python
raises `IndexError` when `[0]` is taken of an empty token list). -/
def _get_hash_from_checkout_target (checkout_target ls_remote : List Char) :
    Except PyExc (List Char) :=
  if ls_remote.length = 0 then
    if reMatchLowerHex 7 checkout_target || reMatchLowerHex 40 checkout_target then
      Except.ok checkout_target
    else
      Except.error PyExc.valueError
  else
    match pySplit ls_remote with
    | [] => Except.error PyExc.indexError
    | tok :: _ => Except.ok tok

/-- Result of one `subprocess.run` call: exit status and captured stderr. -/
structure CompletedProcess where
  returncode : ℤ
  stderr : String
deriving DecidableEq

/-- The two subprocess invocations of `_clone_and_checkout`. -/
inductive GitStep where
  | clone : GitStep
  | checkout : GitStep
deriving DecidableEq

/-- Embedding of `_clone_and_checkout`, with the result of each subprocess
invocation modeled as an input.  The function also returns the list of
steps actually performed: the clone always runs; the checkout runs only
when the clone exited with status 0.  A nonzero status raises
`RuntimeError` carrying that status and the step's captured stderr. -/
def _clone_and_checkout (clone_result checkout_result : CompletedProcess) :
    Except PyExc Unit × List GitStep :=
  if clone_result.returncode ≠ 0 then
    (Except.error (PyExc.runtimeError clone_result.returncode clone_result.stderr),
      [GitStep.clone])
  else if checkout_result.returncode ≠ 0 then
    (Except.error (PyExc.runtimeError checkout_result.returncode checkout_result.stderr),
      [GitStep.clone, GitStep.checkout])
  else
    (Except.ok (), [GitStep.clone, GitStep.checkout])

/-- Python `repr` of a string without characters needing escapes: the text
wrapped in single quotes (character 39). -/
def pyRepr (s : String) : String :=
  String.mk (Char.ofNat 39 :: s.data ++ [Char.ofNat 39])

/-- Python `" " * pad` (empty for non-positive `pad`). -/
def spacesStr (pad : ℤ) : String := String.mk (List.replicate pad.toNat ' ')

/-- Python list indexing `l[i]`: negative indices count from the end, and
an out-of-range index raises `IndexError`. -/
def pyIdx {α : Type} (l : List α) (i : ℤ) : Except PyExc α :=
  let j : ℤ := if i < 0 then i + (l.length : ℤ) else i
  if j < 0 then Except.error PyExc.indexError
  else
    match l[j.toNat]? with
    | some a => Except.ok a
    | none => Except.error PyExc.indexError

/-- Embedding of `_list_to_concise_str`.  When the list is longer than
`item_threshold` the string shows `input_list[0]`, `input_list[1]`, an
ellipsis line and `input_list[-1]`, then `"] "` and (when
`show_item_count`) the `<N items>` count; otherwise all items joined by
a comma, newline and padding inside brackets.  `repr` is applied to items
when `items_are_strs`. -/
def _list_to_concise_str (input_list : List String) (item_threshold : ℤ)
    (pad : ℤ) (items_are_strs : Bool) (show_item_count : Bool) :
    Except PyExc String :=
  let pad_str := spacesStr pad
  let count_str :=
    if show_item_count then "<" ++ toString input_list.length ++ " items>" else ""
  let fmt := fun s => if items_are_strs then pyRepr s else s
  if (input_list.length : ℤ) > item_threshold then
    match pyIdx input_list 0, pyIdx input_list 1, pyIdx input_list (-1) with
    | Except.ok i0, Except.ok i1, Except.ok iN =>
      Except.ok ("[" ++ fmt i0 ++ "," ++ "\n" ++ pad_str ++ fmt i1 ++ "," ++
        "\n" ++ pad_str ++ "   ..." ++ "\n" ++ pad_str ++ fmt iN ++ "] " ++
        count_str)
    | _, _, _ => Except.error PyExc.indexError
  else
    Except.ok ("[" ++
      String.intercalate ("," ++ "\n" ++ pad_str) (input_list.map fmt) ++ "]")

/-- Python `old in line`: does `old` occur as a contiguous substring? -/
def containsSub : List Char → List Char → Bool
  | [], old => old.isEmpty
  | c :: rest, old =>
    ((c :: rest).take old.length == old) || containsSub rest old

/-- Python `str.replace`: replace every occurrence of `old` by `new`,
scanning left to right, non-overlapping.  For empty `old` Python inserts
`new` at every position, including both ends. -/
def replaceList (old new : List Char) : List Char → List Char
  | [] => if old.isEmpty then new else []
  | c :: rest =>
    if old.isEmpty then new ++ c :: replaceList old new rest
    else if (c :: rest).take old.length == old then
      new ++ replaceList old new (rest.drop (old.length - 1))
    else c :: replaceList old new rest
termination_by s => s.length
decreasing_by
  all_goals simp only [List.length_drop, List.length_cons]
  all_goals omega

/-- Embedding of `_replace_text_in_file`, with the file modeled as its
list of lines.  The loop carries the `text_replaced` flag (set when
`old_text in line`) and writes `line.replace(old_text, new_text)` for each
line; the result is the flag and the new file content. -/
def _replace_text_in_file (lines : List (List Char))
    (old_text new_text : List Char) : Bool × List (List Char) :=
  lines.foldl
    (fun acc line =>
      (acc.1 || containsSub line old_text,
        acc.2 ++ [replaceList old_text new_text line]))
    (false, [])

/-! ## Helper lemmas -/

/-- Evaluation helper: `⌈x⌉ = z` once `z - 1 < x ≤ z`. -/
theorem ceil_eval (x : ℚ) (z : ℤ) (h1 : (z : ℚ) - 1 < x) (h2 : x ≤ (z : ℚ)) :
    ⌈x⌉ = z :=
  Int.ceil_eq_iff.mpr ⟨h1, h2⟩

/-- The second component of the allocator simplifies to `⌈c / n⌉` where
`n` is the first component. -/
theorem calculate_node_distribution_eq (c t : ℤ) (hc : 0 < c) (ht : 0 < t) :
    _calculate_node_distribution c t =
      (⌈(c : ℚ) / (t : ℚ)⌉, ⌈(c : ℚ) / ((⌈(c : ℚ) / (t : ℚ)⌉ : ℤ) : ℚ)⌉) := by
  have hcq : (0 : ℚ) < (c : ℚ) := by exact_mod_cast hc
  have htq : (0 : ℚ) < (t : ℚ) := by exact_mod_cast ht
  have hn : 0 < ⌈(c : ℚ) / (t : ℚ)⌉ := Int.ceil_pos.mpr (div_pos hcq htq)
  have hnq : ((⌈(c : ℚ) / (t : ℚ)⌉ : ℤ) : ℚ) ≠ 0 := by
    exact_mod_cast hn.ne'
  unfold _calculate_node_distribution
  refine Prod.ext rfl ?_
  show ⌈(t : ℚ) - ((⌈(c : ℚ) / (t : ℚ)⌉ * t - c : ℤ) : ℚ) /
      ((⌈(c : ℚ) / (t : ℚ)⌉ : ℤ) : ℚ)⌉ = _
  congr 1
  push_cast
  field_simp
  ring

/-- Exact characterization of `hexRun`. -/
theorem hexRun_eq (n : Nat) (s : List Char) :
    hexRun n s =
      if n ≤ s.length ∧ (s.take n).all isLowerHexDigit = true then some (s.drop n)
      else none := by
  induction n generalizing s with
  | zero => simp [hexRun]
  | succ k ih =>
    cases s with
    | nil => simp [hexRun]
    | cons c rest =>
      by_cases hc : isLowerHexDigit c = true
      · rw [hexRun]
        simp only [hc, if_true, ih rest, List.length_cons, List.take_succ_cons,
          List.all_cons, Bool.true_and, List.drop_succ_cons,
          Nat.add_le_add_iff_right]
      · rw [hexRun]
        simp [hc]

/-- The `$` anchor accepts only the empty suffix or a single newline. -/
theorem dollarEnd_iff (r : List Char) :
    dollarEnd r = true ↔ r = [] ∨ r = ['\n'] := by
  match r with
  | [] => simp [dollarEnd]
  | [c] => simp [dollarEnd]
  | c :: d :: rest => simp [dollarEnd]

/-- Declarative characterization of the regex match `^[0-9a-f]{n}$` under
Python `$` semantics: exactly `n` lowercase hex digits, optionally
followed by a single trailing newline. -/
theorem reMatchLowerHex_iff (n : Nat) (s : List Char) :
    reMatchLowerHex n s = true ↔
      ((s.length = n ∧ s.all isLowerHexDigit = true) ∨
       (s.length = n + 1 ∧ (s.take n).all isLowerHexDigit = true ∧
         s.drop n = ['\n'])) := by
  rw [reMatchLowerHex, hexRun_eq]
  by_cases h : n ≤ s.length ∧ (s.take n).all isLowerHexDigit = true
  · rw [if_pos h]
    show dollarEnd (s.drop n) = true ↔ _
    rw [dollarEnd_iff]
    constructor
    · rintro (hdrop | hdrop)
      · left
        have hlen : s.length = n := by
          have := List.drop_eq_nil_iff.mp hdrop
          omega
        refine ⟨hlen, ?_⟩
        have : s.take n = s := List.take_of_length_le (le_of_eq hlen)
        rw [← this]
        exact h.2
      · right
        have hlen : s.length = n + 1 := by
          have := congrArg List.length hdrop
          simp [List.length_drop] at this
          omega
        exact ⟨hlen, h.2, hdrop⟩
    · rintro (⟨hlen, hall⟩ | ⟨hlen, hall, hdrop⟩)
      · left
        exact List.drop_eq_nil_iff.mpr (le_of_eq hlen)
      · right
        exact hdrop
  · rw [if_neg h]
    show false = true ↔ _
    constructor
    · intro hh; exact absurd hh (by simp)
    · rintro (⟨hlen, hall⟩ | ⟨hlen, hall, hdrop⟩)
      · exact absurd ⟨le_of_eq hlen.symm, by
          rw [List.take_of_length_le (le_of_eq hlen)]; exact hall⟩ h
      · exact absurd ⟨by omega, hall⟩ h

/-- Resolver behaviour: empty listing, pattern matched. -/
theorem get_hash_empty_pot (target ls : List Char) (hls : ls.length = 0)
    (hpot : (reMatchLowerHex 7 target || reMatchLowerHex 40 target) = true) :
    _get_hash_from_checkout_target target ls = Except.ok target := by
  unfold _get_hash_from_checkout_target
  rw [if_pos hls, if_pos hpot]

/-- Resolver behaviour: empty listing, pattern not matched. -/
theorem get_hash_empty_nopot (target ls : List Char) (hls : ls.length = 0)
    (hpot : (reMatchLowerHex 7 target || reMatchLowerHex 40 target) = false) :
    _get_hash_from_checkout_target target ls = Except.error PyExc.valueError := by
  unfold _get_hash_from_checkout_target
  rw [if_pos hls, if_neg (by simp [hpot])]

/-- Resolver behaviour: non-empty listing. -/
theorem get_hash_nonempty (target ls : List Char) (hls : ¬ ls.length = 0) :
    _get_hash_from_checkout_target target ls =
      (match pySplit ls with
       | [] => Except.error PyExc.indexError
       | tok :: _ => Except.ok tok) := by
  unfold _get_hash_from_checkout_target
  rw [if_neg hls]

/-- An uppercase hex letter is not a lowercase hex digit and is not a
newline. -/
theorem upper_not_lower_hex (c : Char) (hc : isUpperHexLetter c = true) :
    isLowerHexDigit c = false ∧ c ≠ '\n' := by
  unfold isUpperHexLetter at hc
  unfold isLowerHexDigit
  rw [Bool.and_eq_true, decide_eq_true_iff, decide_eq_true_iff] at hc
  constructor
  · have h1 : ¬ (c.toNat ≤ 57) := by omega
    have h2 : ¬ (97 ≤ c.toNat) := by omega
    simp [h1, h2]
  · intro hn
    subst hn
    exact absurd hc (by decide)

/-- A string containing an uppercase hex letter never matches the
lowercase-only pattern. -/
theorem reMatch_no_upper (n : Nat) (s : List Char)
    (hup : s.any isUpperHexLetter = true) : reMatchLowerHex n s = false := by
  rw [List.any_eq_true] at hup
  obtain ⟨c, hc_mem, hc_up⟩ := hup
  obtain ⟨hc_hex, hc_nl⟩ := upper_not_lower_hex c hc_up
  by_contra hmatch
  rw [Bool.not_eq_false] at hmatch
  rcases (reMatchLowerHex_iff n s).mp hmatch with ⟨_, hall⟩ | ⟨_, hall, hdrop⟩
  · rw [List.all_eq_true] at hall
    exact absurd (hall c hc_mem) (by rw [hc_hex]; intro hh; cases hh)
  · have hsplit : c ∈ s.take n ++ s.drop n := by
      rw [List.take_append_drop]; exact hc_mem
    rcases List.mem_append.mp hsplit with hmem | hmem
    · rw [List.all_eq_true] at hall
      exact absurd (hall c hmem) (by rw [hc_hex]; intro hh; cases hh)
    · rw [hdrop] at hmem
      rcases List.mem_singleton.mp hmem with rfl
      exact hc_nl rfl

/-- Python `l[0]` on a non-empty list. -/
theorem pyIdx_zero {α : Type} (a : α) (l : List α) :
    pyIdx (a :: l) 0 = Except.ok a := by
  simp [pyIdx]

/-- Python `l[1]` on a list with at least two elements. -/
theorem pyIdx_one {α : Type} (a b : α) (l : List α) :
    pyIdx (a :: b :: l) 1 = Except.ok b := by
  simp [pyIdx]

/-- Python `l[-1]` is the last element. -/
theorem pyIdx_neg_one {α : Type} (l : List α) (z : α)
    (hz : l.getLast? = some z) : pyIdx l (-1) = Except.ok z := by
  have hlen : 1 ≤ l.length := by
    cases l with
    | nil => simp at hz
    | cons a t => simp
  unfold pyIdx
  have hj : (if (-1 : ℤ) < 0 then -1 + (l.length : ℤ) else -1) =
      (l.length : ℤ) - 1 := by
    rw [if_pos (by norm_num)]
    ring
  rw [hj, if_neg (by omega)]
  have htn : ((l.length : ℤ) - 1).toNat = l.length - 1 := by omega
  rw [htn]
  rw [List.getLast?_eq_getElem?] at hz
  rw [hz]

/-- The replace loop, with the accumulator generalized. -/
theorem replace_text_foldl (lines : List (List Char)) (old new : List Char)
    (b : Bool) (acc : List (List Char)) :
    lines.foldl
      (fun acc line =>
        (acc.1 || containsSub line old, acc.2 ++ [replaceList old new line]))
      (b, acc) =
    (b || lines.any (fun line => containsSub line old),
      acc ++ lines.map (replaceList old new)) := by
  induction lines generalizing b acc with
  | nil => simp
  | cons l ls ih =>
    simp only [List.foldl_cons, ih, List.any_cons, List.map_cons]
    rw [Bool.or_assoc]
    simp

/-- Closed form of `_replace_text_in_file`. -/
theorem replace_text_eq (lines : List (List Char)) (old new : List Char) :
    _replace_text_in_file lines old new =
      (lines.any (fun line => containsSub line old),
        lines.map (replaceList old new)) := by
  unfold _replace_text_in_file
  rw [replace_text_foldl]
  simp

/-- `containsSub` is the substring relation. -/
theorem containsSub_iff (s old : List Char) :
    containsSub s old = true ↔ ∃ pre post, s = pre ++ old ++ post := by
  induction s with
  | nil =>
    simp only [containsSub, List.isEmpty_iff]
    constructor
    · intro h
      exact ⟨[], [], by simp [h]⟩
    · rintro ⟨pre, post, hs⟩
      have hlen := congrArg List.length hs
      simp only [List.length_nil, List.length_append] at hlen
      exact List.eq_nil_of_length_eq_zero (by omega)
  | cons c rest ih =>
    simp only [containsSub, Bool.or_eq_true, beq_iff_eq, ih]
    constructor
    · rintro (htake | ⟨pre, post, hs⟩)
      · refine ⟨[], (c :: rest).drop old.length, ?_⟩
        rw [List.nil_append]
        calc c :: rest
            = (c :: rest).take old.length ++ (c :: rest).drop old.length :=
              (List.take_append_drop _ _).symm
          _ = old ++ (c :: rest).drop old.length := by rw [htake]
      · exact ⟨c :: pre, post, by rw [hs]; rfl⟩
    · rintro ⟨pre, post, hs⟩
      cases pre with
      | nil =>
        left
        simp only [List.nil_append] at hs
        rw [hs, List.take_left]
      | cons p ps =>
        right
        rw [List.cons_append, List.cons_append] at hs
        injection hs with h1 h2
        exact ⟨ps, post, h2⟩

/-- `str.replace` is the identity when the pattern does not occur. -/
theorem replace_not_contains (s old new : List Char)
    (h : containsSub s old = false) : replaceList old new s = s := by
  induction s with
  | nil =>
    rw [containsSub] at h
    simp [replaceList, h]
  | cons c rest ih =>
    rw [containsSub, Bool.or_eq_false_iff] at h
    have hne : old.isEmpty = false := by
      by_contra hx
      rw [Bool.not_eq_false, List.isEmpty_iff] at hx
      subst hx
      simp at h
    simp [replaceList, hne, h.1, ih h.2]

/-! ## Claim theorems -/

/-- C1: for every pair of positive integers, the pair returned by
`_calculate_node_distribution` satisfies
`n_nodes_to_request * cores_to_request_per_node ≥ n_cores_required` and
`cores_to_request_per_node ≤ tot_cores_per_node`, and both components are
positive. -/
theorem calculate_node_distribution_sound (c t : ℤ) (hc : 0 < c) (ht : 0 < t) :
    c ≤ (_calculate_node_distribution c t).1 * (_calculate_node_distribution c t).2 ∧
    (_calculate_node_distribution c t).2 ≤ t ∧
    0 < (_calculate_node_distribution c t).1 ∧
    0 < (_calculate_node_distribution c t).2 := by
  have hcq : (0 : ℚ) < (c : ℚ) := by exact_mod_cast hc
  have htq : (0 : ℚ) < (t : ℚ) := by exact_mod_cast ht
  rw [calculate_node_distribution_eq c t hc ht]
  set n : ℤ := ⌈(c : ℚ) / (t : ℚ)⌉ with hn_def
  have hn : 0 < n := Int.ceil_pos.mpr (div_pos hcq htq)
  have hnq : (0 : ℚ) < (n : ℚ) := by exact_mod_cast hn
  set k : ℤ := ⌈(c : ℚ) / (n : ℚ)⌉ with hk_def
  have hk : 0 < k := Int.ceil_pos.mpr (div_pos hcq hnq)
  have hck : (c : ℚ) / (n : ℚ) ≤ (k : ℚ) := Int.le_ceil _
  have hcnk : c ≤ n * k := by
    have : (c : ℚ) ≤ (k : ℚ) * (n : ℚ) := (div_le_iff₀ hnq).mp hck
    have : (c : ℚ) ≤ ((n * k : ℤ) : ℚ) := by push_cast; linarith [this]
    exact_mod_cast this
  have hcnt : (c : ℚ) ≤ (n : ℚ) * (t : ℚ) := by
    have h := Int.le_ceil ((c : ℚ) / (t : ℚ))
    have := (div_le_iff₀ htq).mp h
    linarith [this]
  have hkt : k ≤ t := by
    rw [hk_def]
    refine Int.ceil_le.mpr ?_
    rw [div_le_iff₀ hnq]
    linarith [hcnt]
  exact ⟨hcnk, hkt, hn, hk⟩

/-- Witness for C1 at `(192, 128)`. -/
theorem calculate_node_distribution_sound_witness :
    (192 : ℤ) ≤ (_calculate_node_distribution 192 128).1 *
        (_calculate_node_distribution 192 128).2 ∧
    (_calculate_node_distribution 192 128).2 ≤ 128 ∧
    0 < (_calculate_node_distribution 192 128).1 ∧
    0 < (_calculate_node_distribution 192 128).2 :=
  calculate_node_distribution_sound 192 128 (by norm_num) (by norm_num)

/-- C2: for positive inputs the allocator computes exactly the spec's
formula `nodes = ceil(c/t)`,
`cores = ceil(t - ((nodes*t) - c)/nodes)`, with exact rational
division. -/
theorem calculate_node_distribution_spec_formula (c t : ℤ)
    (hc : 0 < c) (ht : 0 < t) :
    _calculate_node_distribution c t = allocateSpecFormula c t := rfl

/-- Witness for C2 at `(192, 128)`. -/
theorem calculate_node_distribution_spec_formula_witness :
    _calculate_node_distribution 192 128 = allocateSpecFormula 192 128 :=
  calculate_node_distribution_spec_formula 192 128 (by norm_num) (by norm_num)

/-- C3: when `0 < c ≤ t`, the allocator requests one node with exactly
`c` cores. -/
theorem calculate_node_distribution_single_node (c t : ℤ)
    (hc : 0 < c) (hct : c ≤ t) :
    _calculate_node_distribution c t = (1, c) := by
  have ht : 0 < t := lt_of_lt_of_le hc hct
  have hcq : (0 : ℚ) < (c : ℚ) := by exact_mod_cast hc
  have htq : (0 : ℚ) < (t : ℚ) := by exact_mod_cast ht
  have hn1 : ⌈(c : ℚ) / (t : ℚ)⌉ = 1 := by
    refine le_antisymm ?_ (Int.ceil_pos.mpr (div_pos hcq htq))
    refine Int.ceil_le.mpr ?_
    rw [Int.cast_one, div_le_one htq]
    exact_mod_cast hct
  rw [calculate_node_distribution_eq c t hc ht, hn1]
  refine Prod.ext rfl ?_
  show ⌈(c : ℚ) / ((1 : ℤ) : ℚ)⌉ = c
  rw [Int.cast_one, div_one, Int.ceil_intCast]

/-- Witness for C3 at `(100, 128)`. -/
theorem calculate_node_distribution_single_node_witness :
    _calculate_node_distribution 100 128 = (1, 100) :=
  calculate_node_distribution_single_node 100 128 (by norm_num) (by norm_num)

/-- C4: the four concrete allocations stated by the spec:
`(192,128) ↦ (2,96)`, `(128,128) ↦ (1,128)`, `(129,128) ↦ (2,65)`,
`(256,128) ↦ (2,128)`. -/
theorem calculate_node_distribution_examples :
    _calculate_node_distribution 192 128 = (2, 96) ∧
    _calculate_node_distribution 128 128 = (1, 128) ∧
    _calculate_node_distribution 129 128 = (2, 65) ∧
    _calculate_node_distribution 256 128 = (2, 128) := by
  have e192 : ⌈((192 : ℤ) : ℚ) / ((128 : ℤ) : ℚ)⌉ = 2 :=
    ceil_eval _ _ (by norm_num) (by norm_num)
  have e129 : ⌈((129 : ℤ) : ℚ) / ((128 : ℤ) : ℚ)⌉ = 2 :=
    ceil_eval _ _ (by norm_num) (by norm_num)
  have e256 : ⌈((256 : ℤ) : ℚ) / ((128 : ℤ) : ℚ)⌉ = 2 :=
    ceil_eval _ _ (by norm_num) (by norm_num)
  refine ⟨?_, ?_, ?_, ?_⟩
  · rw [calculate_node_distribution_eq 192 128 (by norm_num) (by norm_num), e192]
    refine Prod.ext rfl ?_
    show ⌈((192 : ℤ) : ℚ) / ((2 : ℤ) : ℚ)⌉ = 96
    exact ceil_eval _ _ (by norm_num) (by norm_num)
  · exact calculate_node_distribution_single_node 128 128 (by norm_num) le_rfl
  · rw [calculate_node_distribution_eq 129 128 (by norm_num) (by norm_num), e129]
    refine Prod.ext rfl ?_
    show ⌈((129 : ℤ) : ℚ) / ((2 : ℤ) : ℚ)⌉ = 65
    exact ceil_eval _ _ (by norm_num) (by norm_num)
  · rw [calculate_node_distribution_eq 256 128 (by norm_num) (by norm_num), e256]
    refine Prod.ext rfl ?_
    show ⌈((256 : ℤ) : ℚ) / ((2 : ℤ) : ℚ)⌉ = 128
    exact ceil_eval _ _ (by norm_num) (by norm_num)

/-- C5: the allocator is a pure function of its two arguments: identical
inputs give identical outputs, with no dependence on any other state. -/
theorem calculate_node_distribution_deterministic
    (c t c' t' : ℤ) (hcc : c = c') (htt : t = t') :
    _calculate_node_distribution c t = _calculate_node_distribution c' t' := by
  rw [hcc, htt]

/-- Witness for C5 at `(192, 128)`. -/
theorem calculate_node_distribution_deterministic_witness :
    _calculate_node_distribution 192 128 = _calculate_node_distribution 192 128 :=
  calculate_node_distribution_deterministic 192 128 192 128 rfl rfl

/-- C6 (amended): the resolver raises `ValueError` iff the listing is
empty and the target matches neither hash pattern (7 or 40 lowercase hex
digits, with Python `$` also matching before one trailing newline); with
an empty listing and a matching target it returns the target; when the
whitespace-split of the listing is non-empty it returns the first token;
a non-empty listing with no tokens raises `IndexError`. -/
theorem get_hash_amended (target ls tok : List Char) (toks : List (List Char)) :
    (_get_hash_from_checkout_target target ls = Except.error PyExc.valueError ↔
      ls.length = 0 ∧ reMatchLowerHex 7 target = false ∧
        reMatchLowerHex 40 target = false) ∧
    (ls.length = 0 →
      (reMatchLowerHex 7 target || reMatchLowerHex 40 target) = true →
      _get_hash_from_checkout_target target ls = Except.ok target) ∧
    (pySplit ls = tok :: toks →
      _get_hash_from_checkout_target target ls = Except.ok tok) ∧
    (ls.length ≠ 0 → pySplit ls = [] →
      _get_hash_from_checkout_target target ls = Except.error PyExc.indexError) := by
  refine ⟨?_, ?_, ?_, ?_⟩
  · constructor
    · intro hval
      by_cases hls : ls.length = 0
      · by_cases hpot : (reMatchLowerHex 7 target || reMatchLowerHex 40 target) = true
        · rw [get_hash_empty_pot target ls hls hpot] at hval
          exact absurd hval (by intro hh; cases hh)
        · have hpot' : (reMatchLowerHex 7 target || reMatchLowerHex 40 target) = false :=
            Bool.eq_false_iff.mpr hpot
          have h7 := Bool.or_eq_false_iff.mp hpot'
          exact ⟨hls, h7.1, h7.2⟩
      · rw [get_hash_nonempty target ls hls] at hval
        cases hsp : pySplit ls with
        | nil => rw [hsp] at hval; exact absurd hval (by intro hh; cases hh)
        | cons t ts => rw [hsp] at hval; exact absurd hval (by intro hh; cases hh)
    · rintro ⟨hls, h7, h40⟩
      exact get_hash_empty_nopot target ls hls (by rw [h7, h40]; rfl)
  · intro hls hpot
    exact get_hash_empty_pot target ls hls hpot
  · intro hsp
    have hls : ¬ ls.length = 0 := by
      intro hl
      have : ls = [] := List.length_eq_zero.mp hl
      subst this
      exact absurd hsp (by intro hh; cases hh)
    rw [get_hash_nonempty target ls hls, hsp]
  · intro hls hsp
    rw [get_hash_nonempty target ls hls, hsp]

/-- Witness for C6 at target `"main"` and listing
`"abc123 refs/heads/main\n"`. -/
theorem get_hash_amended_witness :
    (_get_hash_from_checkout_target "main".toList "abc123 refs/heads/main\n".toList =
        Except.error PyExc.valueError ↔
      "abc123 refs/heads/main\n".toList.length = 0 ∧
        reMatchLowerHex 7 "main".toList = false ∧
        reMatchLowerHex 40 "main".toList = false) ∧
    ("abc123 refs/heads/main\n".toList.length = 0 →
      (reMatchLowerHex 7 "main".toList || reMatchLowerHex 40 "main".toList) = true →
      _get_hash_from_checkout_target "main".toList "abc123 refs/heads/main\n".toList =
        Except.ok "main".toList) ∧
    (pySplit "abc123 refs/heads/main\n".toList =
        "abc123".toList :: ["refs/heads/main".toList] →
      _get_hash_from_checkout_target "main".toList "abc123 refs/heads/main\n".toList =
        Except.ok "abc123".toList) ∧
    ("abc123 refs/heads/main\n".toList.length ≠ 0 →
      pySplit "abc123 refs/heads/main\n".toList = [] →
      _get_hash_from_checkout_target "main".toList "abc123 refs/heads/main\n".toList =
        Except.error PyExc.indexError) :=
  get_hash_amended "main".toList "abc123 refs/heads/main\n".toList
    "abc123".toList ["refs/heads/main".toList]

/-- C6 counterexample: a non-empty, all-whitespace remote listing makes
the resolver raise `IndexError` rather than return a first token, and an
8-character target (7 hex digits plus a trailing newline) is accepted by
the hash fallback, so an empty listing does not raise `ValueError`
there. -/
theorem get_hash_counterexample :
    (_get_hash_from_checkout_target "main".toList [' '] =
        Except.error PyExc.indexError ∧
      ([' '] : List Char).length ≠ 0) ∧
    (_get_hash_from_checkout_target "abcdef0\n".toList [] =
        Except.ok "abcdef0\n".toList ∧
      "abcdef0\n".toList.length = 8) := by decide

/-- C7: `_clone_and_checkout` errors iff the clone or the checkout exits
nonzero; the error carries the failing step's exit status and stderr; on a
nonzero clone status the checkout step is not performed. -/
theorem clone_and_checkout_errors (cr kr : CompletedProcess) :
    ((_clone_and_checkout cr kr).1.isOk = false ↔
      cr.returncode ≠ 0 ∨ kr.returncode ≠ 0) ∧
    (cr.returncode ≠ 0 →
      (_clone_and_checkout cr kr).1 =
        Except.error (PyExc.runtimeError cr.returncode cr.stderr) ∧
      (_clone_and_checkout cr kr).2 = [GitStep.clone] ∧
      GitStep.checkout ∉ (_clone_and_checkout cr kr).2) ∧
    (cr.returncode = 0 → kr.returncode ≠ 0 →
      (_clone_and_checkout cr kr).1 =
        Except.error (PyExc.runtimeError kr.returncode kr.stderr)) ∧
    (cr.returncode = 0 → kr.returncode = 0 →
      (_clone_and_checkout cr kr).1 = Except.ok ()) := by
  by_cases hc : cr.returncode = 0
  · by_cases hk : kr.returncode = 0
    · refine ⟨?_, ?_, ?_, ?_⟩ <;>
        simp [_clone_and_checkout, hc, hk, Except.isOk, Except.toBool]
    · refine ⟨?_, ?_, ?_, ?_⟩ <;>
        simp [_clone_and_checkout, hc, hk, Except.isOk, Except.toBool]
  · refine ⟨?_, ?_, ?_, ?_⟩ <;>
      simp [_clone_and_checkout, hc, Except.isOk, Except.toBool]

/-- Witness for C7 at a failing clone (status 128) and an unused checkout
result. -/
theorem clone_and_checkout_errors_witness :
    ((_clone_and_checkout ⟨128, "fatal: repository not found"⟩ ⟨0, ""⟩).1.isOk
        = false ↔
      (128 : ℤ) ≠ 0 ∨ (0 : ℤ) ≠ 0) ∧
    ((128 : ℤ) ≠ 0 →
      (_clone_and_checkout ⟨128, "fatal: repository not found"⟩ ⟨0, ""⟩).1 =
        Except.error (PyExc.runtimeError 128 "fatal: repository not found") ∧
      (_clone_and_checkout ⟨128, "fatal: repository not found"⟩ ⟨0, ""⟩).2 =
        [GitStep.clone] ∧
      GitStep.checkout ∉
        (_clone_and_checkout ⟨128, "fatal: repository not found"⟩ ⟨0, ""⟩).2) ∧
    ((128 : ℤ) = 0 → (0 : ℤ) ≠ 0 →
      (_clone_and_checkout ⟨128, "fatal: repository not found"⟩ ⟨0, ""⟩).1 =
        Except.error (PyExc.runtimeError 0 "")) ∧
    ((128 : ℤ) = 0 → (0 : ℤ) = 0 →
      (_clone_and_checkout ⟨128, "fatal: repository not found"⟩ ⟨0, ""⟩).1 =
        Except.ok ()) :=
  clone_and_checkout_errors ⟨128, "fatal: repository not found"⟩ ⟨0, ""⟩

/-- C8: with positive `item_threshold` and `pad`, a list of at most
`item_threshold` items renders as all items comma-joined inside brackets;
a longer list renders as the first, second and last items with an ellipsis
line, and the `<N items>` count when `show_item_count` is set. -/
theorem list_to_concise_str_spec (l : List String) (thr pad : ℤ)
    (show_count : Bool) (a b z : String) (m : List String) (hthr : 1 ≤ thr)
    (hpad : 1 ≤ pad) :
    ((l.length : ℤ) ≤ thr →
      _list_to_concise_str l thr pad true show_count =
        Except.ok ("[" ++
          String.intercalate ("," ++ "\n" ++ spacesStr pad) (l.map pyRepr) ++
          "]")) ∧
    ((l.length : ℤ) > thr → l = a :: b :: m → l.getLast? = some z →
      _list_to_concise_str l thr pad true show_count =
        Except.ok ("[" ++ pyRepr a ++ "," ++ "\n" ++ spacesStr pad ++
          pyRepr b ++ "," ++ "\n" ++ spacesStr pad ++ "   ..." ++ "\n" ++
          spacesStr pad ++ pyRepr z ++ "] " ++
          (if show_count then "<" ++ toString l.length ++ " items>" else ""))) := by
  constructor
  · intro hle
    unfold _list_to_concise_str
    rw [if_neg (by omega)]
    simp
  · intro hgt hl hz
    unfold _list_to_concise_str
    rw [if_pos hgt]
    subst hl
    rw [pyIdx_zero, pyIdx_one, pyIdx_neg_one _ _ hz]
    simp

/-- Witness for C8 at the docstring's five-item example with
threshold 4 and pad 11. -/
theorem list_to_concise_str_spec_witness :
    (((["myitem0", "myitem1", "myitem2", "myitem3", "myitem4"] :
          List String).length : ℤ) ≤ 4 →
      _list_to_concise_str
          ["myitem0", "myitem1", "myitem2", "myitem3", "myitem4"] 4 11 true true =
        Except.ok ("[" ++
          String.intercalate ("," ++ "\n" ++ spacesStr 11)
            ((["myitem0", "myitem1", "myitem2", "myitem3", "myitem4"] :
              List String).map pyRepr) ++ "]")) ∧
    (((["myitem0", "myitem1", "myitem2", "myitem3", "myitem4"] :
          List String).length : ℤ) > 4 →
      ["myitem0", "myitem1", "myitem2", "myitem3", "myitem4"] =
        "myitem0" :: "myitem1" :: ["myitem2", "myitem3", "myitem4"] →
      (["myitem0", "myitem1", "myitem2", "myitem3", "myitem4"] :
          List String).getLast? = some "myitem4" →
      _list_to_concise_str
          ["myitem0", "myitem1", "myitem2", "myitem3", "myitem4"] 4 11 true true =
        Except.ok ("[" ++ pyRepr "myitem0" ++ "," ++ "\n" ++ spacesStr 11 ++
          pyRepr "myitem1" ++ "," ++ "\n" ++ spacesStr 11 ++ "   ..." ++ "\n" ++
          spacesStr 11 ++ pyRepr "myitem4" ++ "] " ++
          (if true then "<" ++
            toString (["myitem0", "myitem1", "myitem2", "myitem3", "myitem4"] :
              List String).length ++ " items>" else ""))) :=
  list_to_concise_str_spec
    ["myitem0", "myitem1", "myitem2", "myitem3", "myitem4"] 4 11 true
    "myitem0" "myitem1" "myitem4" ["myitem2", "myitem3", "myitem4"]
    (by norm_num) (by norm_num)

/-- C9 (amended): the hash-pattern check accepts exactly the strings of 7
or 40 lowercase hex digits optionally followed by one trailing newline
(Python `$` matches before a final newline); uppercase letters are never
accepted, so a target containing an uppercase hex letter raises
`ValueError` when the remote listing is empty. -/
theorem hex_check_amended (target ls s : List Char)
    (hls : ls.length = 0) (hup : target.any isUpperHexLetter = true) :
    _get_hash_from_checkout_target target ls = Except.error PyExc.valueError ∧
    (reMatchLowerHex 7 s = true ↔
      ((s.length = 7 ∧ s.all isLowerHexDigit = true) ∨
       (s.length = 8 ∧ (s.take 7).all isLowerHexDigit = true ∧
         s.drop 7 = ['\n']))) ∧
    (reMatchLowerHex 40 s = true ↔
      ((s.length = 40 ∧ s.all isLowerHexDigit = true) ∨
       (s.length = 41 ∧ (s.take 40).all isLowerHexDigit = true ∧
         s.drop 40 = ['\n']))) := by
  refine ⟨?_, reMatchLowerHex_iff 7 s, reMatchLowerHex_iff 40 s⟩
  refine get_hash_empty_nopot target ls hls ?_
  rw [reMatch_no_upper 7 target hup, reMatch_no_upper 40 target hup]
  rfl

/-- Witness for C9 at the uppercase target `"AAAAAAA"` and empty listing,
with the pattern characterization evaluated at `"abcdef0\n"`. -/
theorem hex_check_amended_witness :
    "AAAAAAA".toList.any isUpperHexLetter = true ∧
    _get_hash_from_checkout_target "AAAAAAA".toList [] =
      Except.error PyExc.valueError ∧
    (reMatchLowerHex 7 "abcdef0\n".toList = true ↔
      (("abcdef0\n".toList.length = 7 ∧
          "abcdef0\n".toList.all isLowerHexDigit = true) ∨
       ("abcdef0\n".toList.length = 8 ∧
          ("abcdef0\n".toList.take 7).all isLowerHexDigit = true ∧
          "abcdef0\n".toList.drop 7 = ['\n']))) := by
  have h := hex_check_amended "AAAAAAA".toList [] "abcdef0\n".toList rfl (by decide)
  exact ⟨by decide, h.1, h.2.1⟩

/-- C9 counterexample: `"abcdef0\n"` has length 8 (neither 7 nor 40),
yet with an empty remote listing the resolver does not raise
`ValueError` — the hash fallback accepts it. -/
theorem hex_check_counterexample :
    ("abcdef0\n".toList.length ≠ 7 ∧ "abcdef0\n".toList.length ≠ 40) ∧
    _get_hash_from_checkout_target "abcdef0\n".toList [] ≠
      Except.error PyExc.valueError := by decide

/-- C10: the returned flag is true iff `old_text` occurs as a substring
of some line; the resulting content is every line with `str.replace`
applied; when the flag is false the content is unchanged. -/
theorem replace_text_in_file_spec (lines : List (List Char))
    (old new : List Char) :
    ((_replace_text_in_file lines old new).1 = true ↔
      ∃ line ∈ lines, ∃ pre post, line = pre ++ old ++ post) ∧
    ((_replace_text_in_file lines old new).2 =
      lines.map (replaceList old new)) ∧
    ((_replace_text_in_file lines old new).1 = false →
      (_replace_text_in_file lines old new).2 = lines) := by
  rw [replace_text_eq]
  refine ⟨?_, rfl, ?_⟩
  · simp only [List.any_eq_true, containsSub_iff]
  · intro hfalse
    simp only at hfalse
    rw [List.any_eq_false] at hfalse
    have hid : ∀ line ∈ lines, replaceList old new line = line := by
      intro line hm
      refine replace_not_contains _ _ _ ?_
      exact Bool.eq_false_iff.mpr (hfalse line hm)
    show lines.map (replaceList old new) = lines
    calc lines.map (replaceList old new) = lines.map id :=
          List.map_congr_left hid
      _ = lines := List.map_id lines

/-- Witness for C10 at one line `"hello"` and absent pattern `"xyz"`. -/
theorem replace_text_in_file_spec_witness :
    (_replace_text_in_file ["hello".toList] "xyz".toList "q".toList).1 = false ∧
    (_replace_text_in_file ["hello".toList] "xyz".toList "q".toList).2 =
      ["hello".toList] := by
  have h1 : (_replace_text_in_file ["hello".toList] "xyz".toList "q".toList).1
      = false := by
    rw [replace_text_eq]
    decide
  exact ⟨h1,
    (replace_text_in_file_spec ["hello".toList] "xyz".toList "q".toList).2.2 h1⟩
